import Mathlib

/-!
Verification of the robaitools kg-service against its specification.

Each component of the service that the claims touch is shallowly embedded
as executable Lean definitions translated from the Python source:

* `pipeline/chunk_mapper.py` — entity→chunk mapping by character overlap;
* `storage/neo4j_client.py`  — idempotent merge operations on the graph,
  including the running-average updates of `create_entity` and
  `create_relationship`;
* `extractors/kg_extractor.py` — the truncated-JSON healer, the failure
  semantics of `extract_kg` and the semaphore-gated metrics protocol;
* `extractors/entity_extractor.py` — the whitespace segmentation used for
  the NER model;
* `pipeline/processor.py` and `api/server.py` — the ingest pipeline and
  the HTTP status mapping of the ingest endpoint;
* `api/enhanced_search.py` — the enhanced-search graph collection and the
  tiered chunk scorer.

Numeric confidences and scores are modelled as rationals; Python integers
are modelled as `Int` (or `Nat` where the source value is a count).
-/

namespace RobaiKG

/-! ## Chunk mapper (`pipeline/chunk_mapper.py`)

`ChunkBoundary` mirrors the dataclass of the same name; `Appearance`
mirrors the `chunk_appearances` record dicts built by
`ChunkMapper.map_entities_to_chunks`. -/

structure ChunkBoundary where
  vector_rowid : Int
  chunk_index : Int
  char_start : Int
  char_end : Int
  text : String
  deriving DecidableEq, Repr

structure Appearance where
  vector_rowid : Int
  chunk_index : Int
  offset_start : Int
  offset_end : Int
  deriving DecidableEq, Repr

/-- `ChunkMapper._calculate_overlap`: character overlap of two ranges. -/
def calculate_overlap (start1 end1 start2 end2 : Int) : Int :=
  max 0 (min end1 end2 - max start1 start2)

/-- `ChunkMapper.overlap_threshold` (set in `__init__`). -/
def overlap_threshold : Int := 10

/-- The appearance record built inside `map_entities_to_chunks` for one
occurrence `(occ_start, occ_end)` overlapping `chunk`:
`offset_start = max(0, occ_start - chunk.char_start)` and
`offset_end = min(len(chunk.text), occ_end - chunk.char_start)`. -/
def mkAppearance (occ : Int × Int) (chunk : ChunkBoundary) : Appearance :=
  { vector_rowid := chunk.vector_rowid
    chunk_index := chunk.chunk_index
    offset_start := max 0 (occ.1 - chunk.char_start)
    offset_end := min (chunk.text.length : Int) (occ.2 - chunk.char_start) }

/-- One step of the inner chunk loop of `map_entities_to_chunks`: the state
is the `seen_chunks` set (as a list of `(vector_rowid, chunk_index)` keys)
together with the accumulated `chunk_appearances` list. -/
def occStep (occ : Int × Int) (st : List (Int × Int) × List Appearance)
    (chunk : ChunkBoundary) : List (Int × Int) × List Appearance :=
  if overlap_threshold ≤ calculate_overlap occ.1 occ.2 chunk.char_start chunk.char_end then
    if (chunk.vector_rowid, chunk.chunk_index) ∈ st.1 then st
    else ((chunk.vector_rowid, chunk.chunk_index) :: st.1, st.2 ++ [mkAppearance occ chunk])
  else st

/-- The `chunk_appearances` list that `map_entities_to_chunks` computes for
one entity from its occurrence list: the outer loop runs over occurrences,
the inner loop over chunk boundaries, threading `seen_chunks`. -/
def chunkAppearances (occurrences : List (Int × Int))
    (chunks : List ChunkBoundary) : List Appearance :=
  (occurrences.foldl (fun st occ => chunks.foldl (occStep occ) st) ([], [])).2

/-! Validation of the ingest request (`api/models.py`): `ChunkMetadata`
field constraints and the `validate_chunks_ordered` validator of
`IngestRequest`. -/

/-- `ChunkMetadata` field validation. -/
def chunkMetadataValid (c : ChunkBoundary) : Prop :=
  0 < c.vector_rowid ∧ 0 ≤ c.chunk_index ∧ 0 ≤ c.char_start ∧ 0 < c.char_end ∧
    c.char_start < c.char_end ∧ 10 ≤ c.text.length ∧ c.text.length ≤ 10000

instance : DecidablePred chunkMetadataValid := fun c =>
  inferInstanceAs (Decidable
    (0 < c.vector_rowid ∧ 0 ≤ c.chunk_index ∧ 0 ≤ c.char_start ∧ 0 < c.char_end ∧
      c.char_start < c.char_end ∧ 10 ≤ c.text.length ∧ c.text.length ≤ 10000))

/-- The `validate_chunks_ordered` validator of `IngestRequest`: adjacent
chunks must have strictly increasing `chunk_index`. -/
def validate_chunks_ordered : List ChunkBoundary → Bool
  | a :: b :: rest =>
      decide (a.chunk_index < b.chunk_index) && validate_chunks_ordered (b :: rest)
  | _ => true

/-- The chunk-list constraints of `IngestRequest`: 1–1000 items, each chunk
valid, `chunk_index` strictly increasing. -/
def chunksAccepted (cs : List ChunkBoundary) : Prop :=
  cs ≠ [] ∧ cs.length ≤ 1000 ∧ (∀ c ∈ cs, chunkMetadataValid c) ∧
    validate_chunks_ordered cs = true

instance : DecidablePred chunksAccepted := fun cs =>
  inferInstanceAs (Decidable
    (cs ≠ [] ∧ cs.length ≤ 1000 ∧ (∀ c ∈ cs, chunkMetadataValid c) ∧
      validate_chunks_ordered cs = true))

/-- The chunk used by the counterexample to the offset invariant: accepted by
the ingest validation (`text` has the minimum 10 characters) but with a
character range much longer than its text. -/
def c4cx_chunk : ChunkBoundary :=
  { vector_rowid := 1, chunk_index := 0, char_start := 0, char_end := 2500,
    text := "0123456789" }

/-! ## Graph store (`storage/neo4j_client.py`)

The graph is modelled as lists of nodes and edges keyed by the canonical
identifiers (`Document.content_id`, `Chunk.vector_rowid`,
`Entity.normalized`, the relationship triple).  Each `create_*` operation is
the `MERGE` of the corresponding Cypher query.  Within one Cypher `SET`
clause the set items are applied in order, each later expression reading the
already-updated property values; the `ON MATCH` branches below are written
with that semantics. -/

structure DocNode where
  content_id : Int
  url : String
  title : String
  deriving DecidableEq, Repr

structure ChunkNode where
  vector_rowid : Int
  chunk_index : Int
  char_start : Int
  char_end : Int
  text_preview : String
  deriving DecidableEq, Repr

structure EntityNode where
  normalized : String
  text : String
  type_primary : String
  type_sub1 : Option String
  type_sub2 : Option String
  type_sub3 : Option String
  type_full : String
  mention_count : ℕ
  avg_confidence : ℚ
  deriving DecidableEq, Repr

/-- A `MENTIONED_IN` edge from an Entity to a Chunk. -/
structure MentionEdge where
  entity_normalized : String
  chunk_rowid : Int
  offset_start : Int
  offset_end : Int
  confidence : ℚ
  context_before : String
  context_after : String
  sentence : String
  deriving DecidableEq, Repr

/-- A semantic relationship edge between two Entities; `rel_type` is the
uppercased predicate used as the Cypher relationship label. -/
structure RelEdge where
  subject_normalized : String
  rel_type : String
  object_normalized : String
  confidence : ℚ
  context : String
  occurrence_count : ℕ
  deriving DecidableEq, Repr

/-- The graph.  `has_chunk` holds the `HAS_CHUNK` edges written by
`create_chunk` (document `content_id`, chunk `vector_rowid`); `part_of`
holds `PART_OF` edges from Chunk to Document — no operation of
`neo4j_client.py` ever writes one, the list exists because the enhanced
search traverses this relationship type. -/
structure GraphState where
  docs : List DocNode
  chunks : List ChunkNode
  has_chunk : List (Int × Int)
  part_of : List (Int × Int)
  entities : List EntityNode
  mentioned_in : List MentionEdge
  rels : List RelEdge
  deriving DecidableEq, Repr

def GraphState.empty : GraphState := ⟨[], [], [], [], [], [], []⟩

/-- `create_document`: `MERGE (d:Document {content_id})`, always refreshing
`url` and `title`. -/
def create_document (g : GraphState) (content_id : Int) (url title : String) :
    GraphState :=
  if g.docs.any (fun d => d.content_id = content_id) then
    { g with docs := g.docs.map (fun d =>
        if d.content_id = content_id then { d with url := url, title := title } else d) }
  else
    { g with docs := g.docs ++ [⟨content_id, url, title⟩] }

/-- `create_chunk`: `MERGE (c:Chunk {vector_rowid})`, set its properties
(`text_preview` truncated to 200 characters), and
`MERGE (d)-[:HAS_CHUNK]->(c)`. -/
def create_chunk (g : GraphState) (document_id : Int)
    (vector_rowid chunk_index char_start char_end : Int)
    (text_preview : String) : GraphState :=
  let node : ChunkNode :=
    ⟨vector_rowid, chunk_index, char_start, char_end, text_preview.take 200⟩
  let chunks :=
    if g.chunks.any (fun c => c.vector_rowid = vector_rowid) then
      g.chunks.map (fun c => if c.vector_rowid = vector_rowid then node else c)
    else g.chunks ++ [node]
  let has_chunk :=
    if (document_id, vector_rowid) ∈ g.has_chunk then g.has_chunk
    else g.has_chunk ++ [(document_id, vector_rowid)]
  { g with chunks := chunks, has_chunk := has_chunk }

/-- The `ON MATCH` branch of `create_entity`.  The Cypher clause is
`SET e.mention_count = e.mention_count + 1,
     e.avg_confidence = (e.avg_confidence * (e.mention_count - 1) + $confidence)
                        / e.mention_count`,
so the second item reads the already-incremented `mention_count`. -/
def entityOnMatch (e : EntityNode) (confidence : ℚ) : EntityNode :=
  let mc : ℕ := e.mention_count + 1
  { e with
    mention_count := mc,
    avg_confidence := (e.avg_confidence * ((mc : ℚ) - 1) + confidence) / (mc : ℚ) }

/-- `create_entity`: `MERGE (e:Entity {normalized})`; on insert the counters
start at `mention_count = 1`, `avg_confidence = confidence`; on match the
running average is applied. -/
def create_entity (g : GraphState) (text normalized type_primary : String)
    (type_sub1 type_sub2 type_sub3 : Option String) (type_full : String)
    (confidence : ℚ) : GraphState :=
  if g.entities.any (fun e => e.normalized = normalized) then
    { g with entities := g.entities.map (fun e =>
        if e.normalized = normalized then entityOnMatch e confidence else e) }
  else
    { g with entities := g.entities ++
        [⟨normalized, text, type_primary, type_sub1, type_sub2, type_sub3,
          type_full, 1, confidence⟩] }

/-- `link_entity_to_chunk`: `MERGE (e)-[m:MENTIONED_IN]->(c)` and set every
attribute to the latest values (contexts truncated to 100, sentence to 500
characters). -/
def link_entity_to_chunk (g : GraphState) (entity_normalized : String)
    (chunk_rowid : Int) (offset_start offset_end : Int) (confidence : ℚ)
    (context_before context_after sentence : String) : GraphState :=
  let edge : MentionEdge :=
    ⟨entity_normalized, chunk_rowid, offset_start, offset_end, confidence,
      context_before.take 100, context_after.take 100, sentence.take 500⟩
  if g.mentioned_in.any (fun m =>
      m.entity_normalized = entity_normalized ∧ m.chunk_rowid = chunk_rowid) then
    { g with mentioned_in := g.mentioned_in.map (fun m =>
        if m.entity_normalized = entity_normalized ∧ m.chunk_rowid = chunk_rowid
        then edge else m) }
  else
    { g with mentioned_in := g.mentioned_in ++ [edge] }

/-- The Cypher relationship label: `predicate.upper().replace(" ", "_")`. -/
def relTypeOf (predicate : String) : String :=
  predicate.toUpper.replace " " "_"

/-- The `ON MATCH` branch of `create_relationship`.  The Cypher clause is
`SET r.confidence = (r.confidence * r.occurrence_count + $confidence)
                    / (r.occurrence_count + 1),
     r.occurrence_count = r.occurrence_count + 1`,
so the confidence expression reads the not-yet-incremented count. -/
def relOnMatch (r : RelEdge) (confidence : ℚ) : RelEdge :=
  { r with
    confidence := (r.confidence * (r.occurrence_count : ℚ) + confidence) /
      ((r.occurrence_count : ℚ) + 1),
    occurrence_count := r.occurrence_count + 1 }

/-- `create_relationship`: both endpoint entities must match (`MATCH`), then
`MERGE (s)-[r:REL_TYPE]->(o)` keyed by the
`(subject_normalized, rel_type, object_normalized)` triple; the stored
context is truncated to 500 characters on insert and is not rewritten on
match. -/
def create_relationship (g : GraphState) (subject_normalized predicate
    object_normalized : String) (confidence : ℚ) (context : String) :
    GraphState :=
  if g.entities.any (fun e => e.normalized = subject_normalized) ∧
      g.entities.any (fun e => e.normalized = object_normalized) then
    if g.rels.any (fun r => r.subject_normalized = subject_normalized ∧
        r.rel_type = relTypeOf predicate ∧
        r.object_normalized = object_normalized) then
      { g with rels := g.rels.map (fun r =>
          if r.subject_normalized = subject_normalized ∧
              r.rel_type = relTypeOf predicate ∧
              r.object_normalized = object_normalized
          then relOnMatch r confidence else r) }
    else
      { g with rels := g.rels ++
          [⟨subject_normalized, relTypeOf predicate, object_normalized,
            confidence, context.take 500, 1⟩] }
  else g

/-! ## Pipeline records and the entity→chunk mapping at the dict level

The extractors (`entity_extractor.extract` and
`kg_extractor._process_entities`) emit entity dicts whose span keys are
`"start"` and `"end"`.  `ChunkMapper.map_entities_to_chunks` however reads
the keys `"occurrences"`, `"start_pos"` and `"end_pos"`, each with a
default (`[]`, `0` and `start_pos + len(entity["text"])`).  The record
below carries both families of fields; the constructors used by the
pipeline leave `occurrences`, `start_pos` and `end_pos` at their absent
values, exactly as the dicts produced by the extractors do. -/

structure EntityRecord where
  text : String
  normalized : String
  /-- the `"start"` key set by the extractors -/
  startIdx : Int
  /-- the `"end"` key set by the extractors -/
  endIdx : Int
  type_primary : String
  type_sub1 : Option String
  type_sub2 : Option String
  type_sub3 : Option String
  type_full : String
  confidence : ℚ
  context_before : String
  context_after : String
  sentence : String
  /-- the `"occurrences"` key: never set by either extractor -/
  occurrences : List (Int × Int) := []
  /-- the `"start_pos"` key: never set by either extractor -/
  start_pos : Option Int := none
  /-- the `"end_pos"` key: never set by either extractor -/
  end_pos : Option Int := none
  deriving DecidableEq, Repr

/-- A relationship dict as produced by
`kg_extractor._process_relationships`. -/
structure RelRecord where
  subject_text : String
  subject_normalized : String
  predicate : String
  object_text : String
  object_normalized : String
  confidence : ℚ
  context : String
  deriving DecidableEq, Repr

/-- Lines 92–102 of `chunk_mapper.py`: take the entity's `"occurrences"`
list; when it is empty, build one occurrence from
`entity.get("start_pos", 0)` and
`entity.get("end_pos", start_pos + len(entity["text"]))`. -/
def entityOccurrences (e : EntityRecord) : List (Int × Int) :=
  if e.occurrences ≠ [] then e.occurrences
  else
    let sp := e.start_pos.getD 0
    let ep := e.end_pos.getD (sp + (e.text.length : Int))
    [(sp, ep)]

/-- An entity enriched with its chunk appearances. -/
structure MappedEntity where
  entity : EntityRecord
  chunk_appearances : List Appearance
  spans_multiple_chunks : Bool
  deriving DecidableEq, Repr

/-- `ChunkMapper.map_entities_to_chunks` for the whole entity list (when the
chunk list is empty the source returns the entities unmapped, which the
store step then reads back as empty appearance lists). -/
def map_entities_to_chunks (entities : List EntityRecord)
    (chunks : List ChunkBoundary) : List MappedEntity :=
  if chunks.isEmpty then
    entities.map (fun e => ⟨e, [], false⟩)
  else
    entities.map (fun e =>
      let apps := chunkAppearances (entityOccurrences e) chunks
      ⟨e, apps, apps.length > 1⟩)

/-- A relationship enriched with chunk data (`primary_chunk_rowid` is
computed by the source but neither persisted nor returned, so it is not
modelled). -/
structure MappedRel where
  rel : RelRecord
  spans_chunks : Bool
  chunk_rowids : List Int
  deriving DecidableEq, Repr

/-- `ChunkMapper.map_relationships_to_chunks`: resolve both endpoints among
the mapped entities (dropping the relationship otherwise), join their
appearance rowid sets, and flag `spans_chunks` when the endpoints share no
chunk. -/
def map_relationships_to_chunks (relationships : List RelRecord)
    (entity_chunk_map : List MappedEntity) : List MappedRel :=
  relationships.filterMap (fun rel =>
    match entity_chunk_map.find? (fun e => e.entity.normalized = rel.subject_normalized),
        entity_chunk_map.find? (fun e => e.entity.normalized = rel.object_normalized) with
    | some se, some oe =>
        let subject_chunks := (se.chunk_appearances.map (·.vector_rowid)).dedup
        let object_chunks := (oe.chunk_appearances.map (·.vector_rowid)).dedup
        let shared := subject_chunks.filter (· ∈ object_chunks)
        some ⟨rel, shared.isEmpty,
          ((subject_chunks ++ object_chunks).dedup).mergeSort (fun a b => a ≤ b)⟩
    | _, _ => none)

/-! ## Pipeline orchestrator (`pipeline/processor.py`) and the failure
semantics of `KGExtractor.extract_kg` -/

/-- The `try`-block of `extract_kg` (the LLM completion followed by
`_parse_llm_response`) either yields entity and relationship lists or raises;
the `except` branch turns any exception into `([], [])`. -/
def extract_kg_result
    (outcome : Except String (List EntityRecord × List RelRecord)) :
    List EntityRecord × List RelRecord :=
  match outcome with
  | .ok r => r
  | .error _ => ([], [])

/-- One iteration of the chunk-persistence loop of
`KGProcessor._store_in_neo4j`. -/
def storeChunkStep (content_id : Int) (g : GraphState) (ch : ChunkBoundary) :
    GraphState :=
  create_chunk g content_id ch.vector_rowid ch.chunk_index ch.char_start
    ch.char_end (ch.text.take 200)

/-- One iteration of the entity-persistence loop of `_store_in_neo4j`:
create the entity, then link it to each chunk of its appearance list whose
`vector_rowid` belongs to this call's `chunk_node_map`. -/
def storeEntityStep (chunks : List ChunkBoundary) (g : GraphState)
    (me : MappedEntity) : GraphState :=
  let e := me.entity
  let g' := create_entity g e.text e.normalized e.type_primary e.type_sub1
    e.type_sub2 e.type_sub3 e.type_full e.confidence
  me.chunk_appearances.foldl (fun g app =>
    if chunks.any (fun ch => ch.vector_rowid = app.vector_rowid) then
      link_entity_to_chunk g e.normalized app.vector_rowid app.offset_start
        app.offset_end e.confidence e.context_before e.context_after e.sentence
    else g) g'

/-- One iteration of the relationship-persistence loop of
`_store_in_neo4j`. -/
def storeRelStep (g : GraphState) (mr : MappedRel) : GraphState :=
  create_relationship g mr.rel.subject_normalized mr.rel.predicate
    mr.rel.object_normalized mr.rel.confidence mr.rel.context

/-- `KGProcessor._store_in_neo4j`: Document, then Chunks, then Entities with
their `MENTIONED_IN` edges, then Relationships (co-occurrence persistence is
commented out in the source). -/
def store_in_neo4j (g : GraphState) (content_id : Int) (url title : String)
    (chunks : List ChunkBoundary) (entities : List MappedEntity)
    (relationships : List MappedRel) : GraphState :=
  relationships.foldl storeRelStep
    (entities.foldl (storeEntityStep chunks)
      (chunks.foldl (storeChunkStep content_id)
        (create_document g content_id url title)))

/-- The result dict built by `KGProcessor.process_document`. -/
structure IngestResult where
  success : Bool
  content_id : Int
  entities_extracted : ℕ
  relationships_extracted : ℕ
  entities : List MappedEntity
  relationships : List MappedRel
  deriving DecidableEq, Repr

/-- `KGProcessor.process_document` on the unified-extraction branch:
extraction (whose exceptions already became `([], [])`), chunk mapping,
persistence, and the response. -/
def process_document (g : GraphState) (content_id : Int) (url title : String)
    (chunks : List ChunkBoundary)
    (extraction : Except String (List EntityRecord × List RelRecord)) :
    GraphState × IngestResult :=
  let er := extract_kg_result extraction
  let mapped_entities := map_entities_to_chunks er.1 chunks
  let mapped_relationships := map_relationships_to_chunks er.2 mapped_entities
  let g' := store_in_neo4j g content_id url title chunks mapped_entities
    mapped_relationships
  (g', ⟨true, content_id, mapped_entities.length, mapped_relationships.length,
    mapped_entities, mapped_relationships⟩)

/-! ## Enhanced search graph collection (`api/enhanced_search.py`)

The Cypher of `_execute_enhanced_query` resolves search terms by exact
`text` match and collects `search_chunk` rows through the pattern
`(search_entity)-[:MENTIONED_IN]->(search_chunk:Chunk)-[:PART_OF]->(doc)`:
a chunk row requires a `PART_OF` edge to a Document. -/

/-- Step 1 of the query: entities whose `text` is among the search terms. -/
def resolved_entities (g : GraphState) (search_terms : List String) :
    List EntityNode :=
  g.entities.filter (fun e => e.text ∈ search_terms)

/-- Step 2 of the query: chunks reached from a resolved entity through
`MENTIONED_IN` and carrying a `PART_OF` edge to some Document. -/
def search_chunk_rows (g : GraphState) (search_terms : List String) :
    List ChunkNode :=
  g.chunks.filter (fun c =>
    ((resolved_entities g search_terms).any (fun e =>
      g.mentioned_in.any (fun m =>
        m.entity_normalized = e.normalized ∧ m.chunk_rowid = c.vector_rowid))) ∧
    g.part_of.any (fun p => p.1 = c.vector_rowid))

/-- The chunks in which a resolved search-term entity is mentioned,
regardless of any Chunk→Document edge — what the ingest path actually
persists. -/
def chunks_mentioning_resolved (g : GraphState) (search_terms : List String) :
    List ChunkNode :=
  g.chunks.filter (fun c =>
    (resolved_entities g search_terms).any (fun e =>
      g.mentioned_in.any (fun m =>
        m.entity_normalized = e.normalized ∧ m.chunk_rowid = c.vector_rowid)))

/-- A chunk is persisted for a document when a Chunk node with its
`vector_rowid` exists and the `HAS_CHUNK` edge from the document is
present. -/
def chunkPersisted (g : GraphState) (content_id rowid : Int) : Prop :=
  (∃ cn ∈ g.chunks, cn.vector_rowid = rowid) ∧ (content_id, rowid) ∈ g.has_chunk

/-! ## NER segmentation (`extractors/entity_extractor.py`)

`EntityExtractor._chunk_text_for_gliner` splits the document on whitespace
and regroups the words into segments of at most `max_chars` characters,
advancing `char_position` by `len(chunk_text) + 1` per flushed segment —
i.e. assuming every separator in the original text was a single space.
Text is modelled as `List Char`. -/

/-- ASCII whitespace as recognised by Python's `str.split` / `str.rstrip`
(the unicode whitespace code points play no role in the claims). -/
def isPySpace (c : Char) : Bool :=
  c = ' ' ∨ c = '\t' ∨ c = '\n' ∨ c = '\r' ∨ c = '\x0b' ∨ c = '\x0c'

/-- Python `text.split()`: split on whitespace runs, discarding empties. -/
def pySplitWords (l : List Char) : List (List Char) :=
  (l.splitOnP isPySpace).filter (· ≠ [])

/-- `' '.join(current_chunk)`. -/
def joinWords (ws : List (List Char)) : List Char :=
  List.intercalate [' '] ws

/-- A segment produced by `_chunk_text_for_gliner`:
`{text, char_start, char_end}`. -/
structure GlinerSegment where
  text : List Char
  char_start : ℕ
  char_end : ℕ
  deriving DecidableEq, Repr

/-- The word loop of `_chunk_text_for_gliner`: arguments are the remaining
words, `current_chunk`, `current_length`, `char_position` and the flushed
segments. -/
def glinerLoop (max_chars : ℕ) :
    List (List Char) → List (List Char) → ℕ → ℕ → List GlinerSegment →
    List GlinerSegment
  | [], current, _, char_position, acc =>
      if current ≠ [] then
        let chunk_text := joinWords current
        acc ++ [⟨chunk_text, char_position, char_position + chunk_text.length⟩]
      else acc
  | word :: words, current, current_length, char_position, acc =>
      let word_len := word.length + 1
      if max_chars < current_length + word_len ∧ current ≠ [] then
        let chunk_text := joinWords current
        glinerLoop max_chars words [word] word_len
          (char_position + chunk_text.length + 1)
          (acc ++ [⟨chunk_text, char_position, char_position + chunk_text.length⟩])
      else
        glinerLoop max_chars words (current ++ [word])
          (current_length + word_len) char_position acc

/-- `EntityExtractor._chunk_text_for_gliner` (default `max_chars = 1000`). -/
def chunk_text_for_gliner (text : List Char) (max_chars : ℕ := 1000) :
    List GlinerSegment :=
  glinerLoop max_chars (pySplitWords text) [] 0 0 []

/-- `l[a:b]` on character lists (for the in-range slices the claims use). -/
def sliceL (l : List Char) (a b : ℕ) : List Char :=
  (l.drop a).take (b - a)

/-- `s[a:b]` on strings with non-negative in-range bounds. -/
def pySlice (s : String) (a b : Int) : String :=
  ⟨(s.data.drop a.toNat).take (b - a).toNat⟩

/-! ## Concrete scenario inputs for the end-to-end claims -/

/-- Chunks of the spec's healthy-ingest scenario. -/
def c1_chunk0 : ChunkBoundary := ⟨45001, 0, 0, 2500, "aaaaaaaaaa"⟩

def c1_chunk1 : ChunkBoundary := ⟨45002, 1, 2450, 4950, "bbbbbbbbbb"⟩

/-- An entity whose text is long enough (≥ 10 characters) for the mapper's
degraded occurrence `(0, len(text))` to clear the overlap threshold. -/
def c1_entity_long : EntityRecord :=
  { text := "Elasticsearch Cluster", normalized := "elasticsearch cluster",
    startIdx := 100, endIdx := 121, type_primary := "Technology",
    type_sub1 := none, type_sub2 := none, type_sub3 := none,
    type_full := "Technology", confidence := 9/10,
    context_before := "", context_after := "", sentence := "" }

def c1_entity_neo4j : EntityRecord :=
  { text := "Neo4j", normalized := "neo4j", startIdx := 10, endIdx := 15,
    type_primary := "Database", type_sub1 := none, type_sub2 := none,
    type_sub3 := none, type_full := "Database", confidence := 9/10,
    context_before := "", context_after := "", sentence := "" }

def c1_entity_python : EntityRecord :=
  { text := "Python", normalized := "python", startIdx := 20, endIdx := 26,
    type_primary := "Language", type_sub1 := none, type_sub2 := none,
    type_sub3 := none, type_full := "Language", confidence := 9/10,
    context_before := "", context_after := "", sentence := "" }

/-- The graph after ingesting the long-named entity. -/
def c1_state_long : GraphState :=
  (process_document GraphState.empty 123 "https://e" "t"
    [c1_chunk0, c1_chunk1] (.ok ([c1_entity_long], []))).1

/-- The graph after ingesting the spec scenario's `Neo4j` / `Python`
entities at their document spans. -/
def c1_state_spec : GraphState :=
  (process_document GraphState.empty 123 "https://e" "t"
    [c1_chunk0, c1_chunk1] (.ok ([c1_entity_neo4j, c1_entity_python], []))).1

/-- Markdown for the round-trip counterexample; `electromagnetism` occupies
positions 25–41. -/
def c5_markdown : String :=
  "A discussion of physics: electromagnetism explained here ok."

def c5_chunk : ChunkBoundary := ⟨91, 0, 0, 61, c5_markdown⟩

def c5_entity : EntityRecord :=
  { text := "electromagnetism", normalized := "electromagnetism",
    startIdx := 25, endIdx := 41, type_primary := "Concept",
    type_sub1 := none, type_sub2 := none, type_sub3 := none,
    type_full := "Concept", confidence := 9/10,
    context_before := "", context_after := "", sentence := "" }

def c5_result : GraphState × IngestResult :=
  process_document GraphState.empty 7 "https://x" "t" [c5_chunk]
    (.ok ([c5_entity], []))

/-- A document over 1500 characters whose first word is separated from the
rest by a double newline: `aa`, then four 400-character words. -/
def c5seg_text : List Char :=
  "aa".toList ++ ['\n', '\n'] ++
    List.intercalate [' '] (List.replicate 4 (List.replicate 400 'b'))

/-! ## Truncated-JSON healer (`KGExtractor._heal_truncated_json`)

The response is a `List Char`; braces are written with their character
codes.  `rstrip` is Python's `str.rstrip()` over the ASCII whitespace that
matters here. -/

def rstrip (l : List Char) : List Char :=
  (l.reverse.dropWhile isPySpace).reverse

/-- Occurrence count of one character. -/
def countCh (c : Char) (l : List Char) : ℕ := l.count c

/-- Brace and bracket counts balance. -/
def balancedCounts (l : List Char) : Prop :=
  countCh '\x7b' l = countCh '\x7d' l ∧ countCh '[' l = countCh ']' l

instance : DecidablePred balancedCounts := fun l =>
  inferInstanceAs (Decidable (countCh '\x7b' l = countCh '\x7d' l ∧
    countCh '[' l = countCh ']' l))

/-- The fallback document `'\x7b"entities": [], "relationships": []\x7d'`. -/
def emptyDocument : List Char :=
  "\x7b\"entities\": [], \"relationships\": []\x7d".toList

/-- The truncation of the response at the last `'\x7d'` or `']'` found
strictly after `start_idx` (the backward scan
`for i in range(len(response) - 1, start_idx, -1)`). -/
def lastCompleteTruncation (response : List Char) (start_idx : ℕ) :
    List Char :=
  response.take (start_idx + 1) ++
    ((response.drop (start_idx + 1)).reverse.dropWhile
      (fun c => ¬(c = '\x7d' ∨ c = ']'))).reverse

/-- Append the bracket deficit as `'\n  ]'` groups (the source's two
branches of this loop append the same text), then the brace deficit as
`'\n\x7d'` groups; both deficits are counted on the truncated text, as in
the source. -/
def closeStructures (healed : List Char) : List Char :=
  (healed ++
    (List.replicate (countCh '[' healed - countCh ']' healed)
      ['\n', ' ', ' ', ']']).flatten) ++
    (List.replicate (countCh '\x7b' healed - countCh '\x7d' healed)
      ['\n', '\x7d']).flatten

/-- Final validation: return the healed text when its counts balance, the
empty document otherwise. -/
def healAfterTruncate (healed : List Char) : List Char :=
  if balancedCounts (closeStructures healed) then closeStructures healed
  else emptyDocument

/-- The healing branch: no complete structure after the first `'\x7b'`
yields the empty document, otherwise truncate and close. -/
def healCore (response : List Char) (start_idx : ℕ) : List Char :=
  if (response.drop (start_idx + 1)).reverse.dropWhile
      (fun c => ¬(c = '\x7d' ∨ c = ']')) = [] then
    emptyDocument
  else healAfterTruncate (lastCompleteTruncation response start_idx)

/-- `KGExtractor._heal_truncated_json`: no `'\x7b'` at all yields the empty
document; a response that (right-stripped) ends in `'\x7d'` with balanced
counts is returned unchanged; otherwise heal. -/
def heal_truncated_json (response : List Char) : List Char :=
  match response.findIdx? (fun c => c = '\x7b') with
  | none => emptyDocument
  | some start_idx =>
      if (rstrip response).getLast? = some '\x7d' ∧
          countCh '\x7b' (rstrip response) = countCh '\x7d' (rstrip response) ∧
          countCh '[' (rstrip response) = countCh ']' (rstrip response) then
        response
      else healCore response start_idx

/-! ## Extraction gate (`KGExtractor._get_semaphore` / `_update_metrics` /
`extract_kg`)

Each caller of `extract_kg` moves through the phases: queued (after the
`"queue"` metric update), acquired (holding a semaphore slot, before the
`"start"` update), running (counted in `active`), done (after the
`"complete"` or `"fail"` update, still holding the slot until the
`async with` block exits), released.  Callers are interchangeable, so a
state records how many sit in each phase, alongside the four metric
counters (`active` as a Python integer). -/

structure SemState where
  n_new : ℕ
  n_queued : ℕ
  n_acquired : ℕ
  n_running : ℕ
  n_doneok : ℕ
  n_donefail : ℕ
  n_relok : ℕ
  n_relfail : ℕ
  active : Int
  total_queued : ℕ
  total_completed : ℕ
  total_failed : ℕ
  deriving DecidableEq, Repr

/-- The number of semaphore slots currently held. -/
def SemState.holders (s : SemState) : ℕ :=
  s.n_acquired + s.n_running + s.n_doneok + s.n_donefail

/-- `n` callers about to submit, all metrics zero. -/
def SemState.init (n : ℕ) : SemState :=
  ⟨n, 0, 0, 0, 0, 0, 0, 0, 0, 0, 0, 0⟩

/-- The transitions of the gate.  `acquire` is guarded by the semaphore
capacity; `complete` and `fail` mirror the two `_update_metrics` calls on
the success and the failure path of `extract_kg`, and both lead to the
release transition performed by leaving the `async with` block. -/
inductive SemStep (max : ℕ) : SemState → SemState → Prop
  | queue (s : SemState) (h : 0 < s.n_new) :
      SemStep max s { s with n_new := s.n_new - 1,
                             n_queued := s.n_queued + 1,
                             total_queued := s.total_queued + 1 }
  | acquire (s : SemState) (h : 0 < s.n_queued) (hcap : s.holders < max) :
      SemStep max s { s with n_queued := s.n_queued - 1,
                             n_acquired := s.n_acquired + 1 }
  | start (s : SemState) (h : 0 < s.n_acquired) :
      SemStep max s { s with n_acquired := s.n_acquired - 1,
                             n_running := s.n_running + 1,
                             active := s.active + 1 }
  | complete (s : SemState) (h : 0 < s.n_running) :
      SemStep max s { s with n_running := s.n_running - 1,
                             n_doneok := s.n_doneok + 1,
                             active := s.active - 1,
                             total_completed := s.total_completed + 1 }
  | fail (s : SemState) (h : 0 < s.n_running) :
      SemStep max s { s with n_running := s.n_running - 1,
                             n_donefail := s.n_donefail + 1,
                             active := s.active - 1,
                             total_failed := s.total_failed + 1 }
  | release_ok (s : SemState) (h : 0 < s.n_doneok) :
      SemStep max s { s with n_doneok := s.n_doneok - 1,
                             n_relok := s.n_relok + 1 }
  | release_fail (s : SemState) (h : 0 < s.n_donefail) :
      SemStep max s { s with n_donefail := s.n_donefail - 1,
                             n_relfail := s.n_relfail + 1 }

/-- States reachable from `n` fresh callers under capacity `max`. -/
def SemReachable (max n : ℕ) (s : SemState) : Prop :=
  Relation.ReflTransGen (SemStep max) (SemState.init n) s

/-- The inductive invariant of the gate. -/
def SemInv (n : ℕ) (max : ℕ) (s : SemState) : Prop :=
  s.active = (s.n_running : Int) ∧ s.holders ≤ max ∧
  s.total_completed = s.n_doneok + s.n_relok ∧
  s.total_failed = s.n_donefail + s.n_relfail ∧
  s.n_new + s.n_queued + s.n_acquired + s.n_running + s.n_doneok +
    s.n_donefail + s.n_relok + s.n_relfail = n

/-! ## Ingest endpoint status mapping (`api/server.py::ingest_document`) -/

inductive PyExc
  | http (status : ℕ) (detail : String)
  | plain (msg : String)
  deriving DecidableEq, Repr

/-- Python `str(e)`: starlette's `HTTPException.__str__` renders
`"{status_code}: {detail}"`. -/
def str_of_exc : PyExc → String
  | .http s d => toString s ++ ": " ++ d
  | .plain m => m

inductive HandlerOutcome
  | ok (r : IngestResult)
  | httpError (status : ℕ) (detail : String)
  deriving DecidableEq, Repr

/-- `ingest_document`: the uninitialized-processor check raises
`HTTPException(503)` *inside* the `try` block; `except Exception` (which
`HTTPException` is a subclass of) catches every failure and raises
`HTTPException(500, "Processing failed: " + str(e))`. -/
def ingest_document (processor_initialized : Bool)
    (processing : Except String IngestResult) : HandlerOutcome :=
  let body : Except PyExc IngestResult :=
    if ¬ processor_initialized then
      .error (.http 503 "KG processor not initialized")
    else
      match processing with
      | .ok r => .ok r
      | .error e => .error (.plain e)
  match body with
  | .ok r => .ok r
  | .error e => .httpError 500 ("Processing failed: " ++ str_of_exc e)

def outcome_status : HandlerOutcome → ℕ
  | .ok _ => 200
  | .httpError s _ => s

/-- Modelled from the spec: FastAPI answers 422 for a request body that
violates the `IngestRequest` schema, before the handler body runs (the
validation rules themselves are `api/models.py`; the 422 mapping is
framework behaviour). -/
def ingest_endpoint (body_valid : Bool) (processor_initialized : Bool)
    (processing : Except String IngestResult) : ℕ :=
  if ¬ body_valid then 422
  else outcome_status (ingest_document processor_initialized processing)

/-! ## Enhanced-search scorer (`_score_and_rank_chunks` and the `max_chunks`
truncation of `enhanced_kg_search`) -/

/-- A chunk row of the query result (`search_chunks` rows carry
`search_entities`, `expanded_chunks` rows carry `expanded_entities`; a row
for an unmatched `OPTIONAL MATCH` has no `vector_rowid`). -/
structure RawChunk where
  chunk_id : String
  vector_rowid : Option Int
  chunk_index : Int
  text : List Char
  doc_url : String
  search_entities : List String
  expanded_entities : List String
  deriving DecidableEq, Repr

structure QueryResult where
  search_chunks : List RawChunk
  expanded_chunks : List RawChunk
  deriving DecidableEq, Repr

structure ScoredChunk where
  chunk_id : String
  vector_rowid : Int
  chunk_index : Int
  chunk_text : List Char
  document_url : String
  expansion_score : ℚ
  search_entity_count : ℕ
  expanded_entity_count : ℕ
  deriving DecidableEq, Repr

/-- The scored record built for a search-term chunk: 1.0 for at least two
search entities, 0.6 for exactly one, 0.4 otherwise; the response text is
truncated to 500 characters. -/
def scoreSearchChunk (c : RawChunk) (rowid : Int) : ScoredChunk :=
  { chunk_id := c.chunk_id, vector_rowid := rowid,
    chunk_index := c.chunk_index, chunk_text := c.text.take 500,
    document_url := c.doc_url,
    expansion_score :=
      if 2 ≤ c.search_entities.length then 1
      else if c.search_entities.length = 1 then 3/5 else 2/5,
    search_entity_count := c.search_entities.length,
    expanded_entity_count := 0 }

/-- The scored record built for an expansion-only chunk: 0.8 for more than
three co-occurring entities, 0.6 for two or three, 0.4 otherwise. -/
def scoreExpandedChunk (c : RawChunk) (rowid : Int) : ScoredChunk :=
  { chunk_id := c.chunk_id, vector_rowid := rowid,
    chunk_index := c.chunk_index, chunk_text := c.text.take 500,
    document_url := c.doc_url,
    expansion_score :=
      if 3 < c.expanded_entities.length then 4/5
      else if 1 < c.expanded_entities.length then 3/5 else 2/5,
    search_entity_count := 0,
    expanded_entity_count := c.expanded_entities.length }

/-- One loop iteration of `_score_and_rank_chunks`: skip rows without a
`vector_rowid` and rows whose rowid was already seen, otherwise append the
scored record. -/
def dedupStep (mk : RawChunk → Int → ScoredChunk)
    (st : List Int × List ScoredChunk) (c : RawChunk) :
    List Int × List ScoredChunk :=
  match c.vector_rowid with
  | none => st
  | some rid =>
      if rid ∈ st.1 then st else (rid :: st.1, st.2 ++ [mk c rid])

/-- `_score_and_rank_chunks`: search-term chunks first, expansion chunks
second, one `chunk_dedup` set across both, then a stable sort by score
descending. -/
def score_and_rank_chunks (qr : QueryResult) : List ScoredChunk :=
  (qr.expanded_chunks.foldl (dedupStep scoreExpandedChunk)
    (qr.search_chunks.foldl (dedupStep scoreSearchChunk) ([], []))).2.mergeSort
    (fun a b => decide (b.expansion_score ≤ a.expansion_score))

/-- The `scored_chunks[:request.max_chunks]` truncation of
`enhanced_kg_search`. -/
def enhanced_top_chunks (qr : QueryResult) (max_chunks : ℕ) :
    List ScoredChunk :=
  (score_and_rank_chunks qr).take max_chunks

/-- The scoring tiers as the spec states them, on the pair (number of
resolved search entities in the chunk, number of co-occurring entities). -/
def tierScore (s x : ℕ) : ℚ :=
  if 2 ≤ s then 1
  else if s = 1 then 3/5
  else if 3 < x then 4/5
  else if 1 < x then 3/5
  else 2/5

/-- Every appearance the inner chunk loop adds beyond its starting state is
`mkAppearance occ ch` for a chunk `ch` of the list whose overlap with the
occurrence reaches the threshold. -/
theorem mem_foldl_occStep {chunks : List ChunkBoundary} {occ : Int × Int}
    {st : List (Int × Int) × List Appearance} {app : Appearance}
    (h : app ∈ (chunks.foldl (occStep occ) st).2) :
    app ∈ st.2 ∨ ∃ ch ∈ chunks, app = mkAppearance occ ch ∧
      overlap_threshold ≤ calculate_overlap occ.1 occ.2 ch.char_start ch.char_end := by
  induction chunks generalizing st with
  | nil => exact Or.inl h
  | cons c cs ih =>
    rcases @ih (occStep occ st c) h with h' | ⟨ch, hch, happ⟩
    · unfold occStep at h'
      split at h'
      · split at h'
        · exact Or.inl h'
        · rcases List.mem_append.mp h' with h'' | h''
          · exact Or.inl h''
          · refine Or.inr ⟨c, List.mem_cons_self _ _, List.mem_singleton.mp h'', ?_⟩
            assumption
      · exact Or.inl h'
    · exact Or.inr ⟨ch, List.mem_cons_of_mem _ hch, happ⟩

/-- Generalization of `mem_chunkAppearances` to an arbitrary starting state
of the occurrence loop. -/
theorem mem_foldl_occs {occurrences : List (Int × Int)}
    {chunks : List ChunkBoundary}
    {st : List (Int × Int) × List Appearance} {app : Appearance}
    (h : app ∈ (occurrences.foldl
      (fun st occ => chunks.foldl (occStep occ) st) st).2) :
    app ∈ st.2 ∨ ∃ occ ∈ occurrences, ∃ ch ∈ chunks, app = mkAppearance occ ch ∧
      overlap_threshold ≤ calculate_overlap occ.1 occ.2 ch.char_start ch.char_end := by
  induction occurrences generalizing st with
  | nil => exact Or.inl h
  | cons o os ih =>
    rcases @ih (chunks.foldl (occStep o) st) h with h' | ⟨occ, hocc, hrest⟩
    · rcases mem_foldl_occStep h' with h'' | ⟨ch, hch, happ⟩
      · exact Or.inl h''
      · exact Or.inr ⟨o, List.mem_cons_self _ _, ch, hch, happ⟩
    · exact Or.inr ⟨occ, List.mem_cons_of_mem _ hocc, hrest⟩

/-- Every appearance produced by `map_entities_to_chunks` for an entity comes
from one of its occurrences and one of the chunks, with overlap at least the
threshold. -/
theorem mem_chunkAppearances {occurrences : List (Int × Int)}
    {chunks : List ChunkBoundary} {app : Appearance}
    (h : app ∈ chunkAppearances occurrences chunks) :
    ∃ occ ∈ occurrences, ∃ ch ∈ chunks, app = mkAppearance occ ch ∧
      overlap_threshold ≤ calculate_overlap occ.1 occ.2 ch.char_start ch.char_end := by
  rcases mem_foldl_occs h with h' | h'
  · simp at h'
  · exact h'

/-- Claim C3: for every entity occurrence `(start, end)` and every chunk
range, `map_entities_to_chunks` records an appearance for that chunk exactly
when the character overlap `max(0, min(end, char_end) - max(start, char_start))`
is at least 10 (appearances being deduplicated by `(vector_rowid,
chunk_index)`); an overlap of exactly 9 characters produces no appearance and
an overlap of exactly 10 does. -/
theorem chunk_overlap_threshold_boundary :
    (∀ (s e : Int) (ch : ChunkBoundary),
        chunkAppearances [(s, e)] [ch] =
          if overlap_threshold ≤ calculate_overlap s e ch.char_start ch.char_end
          then [mkAppearance (s, e) ch] else []) ∧
    chunkAppearances [(0, 9)] [⟨1, 0, 0, 100, "aaaaaaaaaa"⟩] = [] ∧
    chunkAppearances [(0, 10)] [⟨1, 0, 0, 100, "aaaaaaaaaa"⟩] =
      [⟨1, 0, 0, 10⟩] := by
  refine ⟨?_, by decide, by decide⟩
  intro s e ch
  unfold chunkAppearances occStep
  simp only [List.foldl]
  split
  · simp
  · rfl

/-- Counterexample to claim C4: a chunk list accepted by the ingest
validation (`char_start = 0`, `char_end = 2500`, `text` of length 10) and an
entity occurrence `(100, 120)` for which the mapper records an appearance
whose `offset_start = 100` is not below its `offset_end = 10`. -/
theorem appearance_offsets_counterexample :
    chunksAccepted [c4cx_chunk] ∧
    ∃ app ∈ chunkAppearances [(100, 120)] [c4cx_chunk],
      ¬ app.offset_start < app.offset_end := by decide

/-- Claim C4 (amended): every appearance produced by the entity-to-chunk
mapper unconditionally satisfies `0 ≤ offset_start` and
`offset_end ≤ len(chunk.text)`; the full chain
`0 ≤ offset_start < offset_end ≤ len(chunk.text)` holds when every chunk's
text length agrees with its character range
(`len(text) = char_end - char_start`) — without that consistency condition
(which the ingest validation does not enforce) the middle inequality can
fail, see the counterexample. -/
theorem appearance_offsets_valid :
    (∀ (occs : List (Int × Int)) (chunks : List ChunkBoundary),
      ∀ app ∈ chunkAppearances occs chunks,
        0 ≤ app.offset_start ∧
        ∃ c ∈ chunks, c.vector_rowid = app.vector_rowid ∧
          c.chunk_index = app.chunk_index ∧
          app.offset_end ≤ (c.text.length : Int)) ∧
    (∀ (occs : List (Int × Int)) (chunks : List ChunkBoundary),
      (∀ c ∈ chunks, (c.text.length : Int) = c.char_end - c.char_start) →
      ∀ app ∈ chunkAppearances occs chunks,
        0 ≤ app.offset_start ∧ app.offset_start < app.offset_end ∧
        ∃ c ∈ chunks, c.vector_rowid = app.vector_rowid ∧
          c.chunk_index = app.chunk_index ∧
          app.offset_end ≤ (c.text.length : Int)) := by
  constructor
  · intro occs chunks app happ
    obtain ⟨occ, _, ch, hch, rfl, hov⟩ := mem_chunkAppearances happ
    unfold mkAppearance
    exact ⟨le_max_left _ _, ch, hch, rfl, rfl, min_le_left _ _⟩
  · intro occs chunks hlen app happ
    obtain ⟨occ, _, ch, hch, rfl, hov⟩ := mem_chunkAppearances happ
    have hL := hlen ch hch
    unfold calculate_overlap overlap_threshold at hov
    unfold mkAppearance
    refine ⟨le_max_left _ _, ?_, ch, hch, rfl, rfl, min_le_left _ _⟩
    simp only
    omega

/-- Witness for the amended claim C4 at a concrete consistent input: the
single chunk `[0, 20)` with a 20-character text and the occurrence `(0, 15)`
yield the well-formed appearance `(0, 15)`. -/
theorem appearance_offsets_valid_witness :
    0 ≤ (⟨1, 0, 0, 15⟩ : Appearance).offset_start ∧
    (⟨1, 0, 0, 15⟩ : Appearance).offset_start <
      (⟨1, 0, 0, 15⟩ : Appearance).offset_end ∧
    ∃ c ∈ [(⟨1, 0, 0, 20, "01234567890123456789"⟩ : ChunkBoundary)],
      c.vector_rowid = (⟨1, 0, 0, 15⟩ : Appearance).vector_rowid ∧
      c.chunk_index = (⟨1, 0, 0, 15⟩ : Appearance).chunk_index ∧
      (⟨1, 0, 0, 15⟩ : Appearance).offset_end ≤ (c.text.length : Int) :=
  appearance_offsets_valid.2 [((0 : Int), (15 : Int))]
    [⟨1, 0, 0, 20, "01234567890123456789"⟩] (by decide)
    ⟨1, 0, 0, 15⟩ (by decide)

/-- Updating the elements satisfying a predicate in place does not change
which element `find?` locates, provided the update preserves the
predicate. -/
theorem find?_map_update {α : Type} (p : α → Prop) [DecidablePred p]
    (f : α → α) (hf : ∀ a, p a → p (f a)) :
    ∀ (l : List α) (a : α), l.find? (fun x => decide (p x)) = some a →
      (l.map (fun x => if p x then f x else x)).find?
        (fun x => decide (p x)) = some (f a) := by
  intro l
  induction l with
  | nil => intro a h; simp at h
  | cons x xs ih =>
    intro a h
    by_cases hx : p x
    · rw [List.find?_cons_of_pos _ (by simpa using hx)] at h
      injection h with h
      subst h
      simp only [List.map_cons, if_pos hx]
      exact List.find?_cons_of_pos _ (by simpa using hf x hx)
    · rw [List.find?_cons_of_neg _ (by simpa using hx)] at h
      simp only [List.map_cons, if_neg hx]
      rw [List.find?_cons_of_neg _ (by simpa using hx)]
      exact ih a h

/-- Claim C2: on a merge of an entity whose `normalized` key already exists,
`create_entity` stores `avg_confidence = (old_avg * n + confidence) / (n+1)`
and `mention_count = n + 1` where `n` is the old `mention_count`; likewise,
on a merge of a relationship whose `(subject, predicate, object)` triple
already exists, `create_relationship` stores
`confidence = (old_confidence * n + confidence) / (n+1)` and
`occurrence_count = n + 1` where `n` is the old `occurrence_count`. -/
theorem running_average_merge :
    (∀ (g : GraphState) (text normalized type_primary : String)
      (ts1 ts2 ts3 : Option String) (type_full : String) (confidence : ℚ)
      (e : EntityNode),
      g.entities.find? (fun e => e.normalized = normalized) = some e →
      (create_entity g text normalized type_primary ts1 ts2 ts3 type_full
          confidence).entities.find? (fun e => e.normalized = normalized) =
        some (entityOnMatch e confidence) ∧
      (entityOnMatch e confidence).mention_count = e.mention_count + 1 ∧
      (entityOnMatch e confidence).avg_confidence =
        (e.avg_confidence * e.mention_count + confidence) /
          (e.mention_count + 1)) ∧
    (∀ (g : GraphState) (subj pred obj : String) (confidence : ℚ)
      (context : String) (r : RelEdge),
      g.entities.any (fun e => e.normalized = subj) = true →
      g.entities.any (fun e => e.normalized = obj) = true →
      g.rels.find? (fun r => r.subject_normalized = subj ∧
        r.rel_type = relTypeOf pred ∧ r.object_normalized = obj) = some r →
      (create_relationship g subj pred obj confidence context).rels.find?
          (fun r => r.subject_normalized = subj ∧
            r.rel_type = relTypeOf pred ∧ r.object_normalized = obj) =
        some (relOnMatch r confidence) ∧
      (relOnMatch r confidence).occurrence_count = r.occurrence_count + 1 ∧
      (relOnMatch r confidence).confidence =
        (r.confidence * r.occurrence_count + confidence) /
          (r.occurrence_count + 1)) := by
  constructor
  · intro g text normalized type_primary ts1 ts2 ts3 type_full confidence e hfind
    have hpe : e.normalized = normalized := by
      simpa using List.find?_some hfind
    have hany : g.entities.any (fun e => e.normalized = normalized) = true := by
      simp only [List.any_eq_true]
      exact ⟨e, List.mem_of_find?_eq_some hfind, by simpa using hpe⟩
    refine ⟨?_, rfl, ?_⟩
    · unfold create_entity
      rw [if_pos hany]
      refine find?_map_update (fun e => e.normalized = normalized)
        (fun e => entityOnMatch e confidence) ?_ g.entities e hfind
      intro a ha
      show (entityOnMatch a confidence).normalized = normalized
      simpa [entityOnMatch] using ha
    · show (e.avg_confidence * ((((e.mention_count + 1 : ℕ) : ℚ)) - 1) +
          confidence) / ((e.mention_count + 1 : ℕ) : ℚ) = _
      push_cast
      ring_nf
  · intro g subj pred obj confidence context r hs ho hfind
    refine ⟨?_, rfl, rfl⟩
    have hpr := List.find?_some hfind
    have hmatch : g.rels.any (fun r => r.subject_normalized = subj ∧
        r.rel_type = relTypeOf pred ∧ r.object_normalized = obj) = true := by
      simp only [List.any_eq_true]
      exact ⟨r, List.mem_of_find?_eq_some hfind, hpr⟩
    unfold create_relationship
    rw [if_pos (by exact ⟨hs, ho⟩)]
    rw [if_pos hmatch]
    refine find?_map_update
      (fun r => r.subject_normalized = subj ∧
        r.rel_type = relTypeOf pred ∧ r.object_normalized = obj)
      (fun r => relOnMatch r confidence) ?_ g.rels r hfind
    intro a ha
    show (relOnMatch a confidence).subject_normalized = subj ∧
      (relOnMatch a confidence).rel_type = relTypeOf pred ∧
      (relOnMatch a confidence).object_normalized = obj
    simpa [relOnMatch] using ha

/-- Witness for claim C2 at a concrete store: an entity with
`mention_count = 2`, `avg_confidence = 1/2` merged with confidence `3/4`,
and a relationship with `occurrence_count = 2`, `confidence = 1/2` merged
with confidence `3/4`. -/
theorem running_average_merge_witness :
    ((create_entity
        ⟨[], [], [], [],
          [⟨"python", "Python", "Language", none, none, none, "Language", 2, 1/2⟩],
          [], []⟩
        "Python" "python" "Language" none none none "Language"
        (3/4)).entities.find? (fun e => e.normalized = "python") =
      some (entityOnMatch
        ⟨"python", "Python", "Language", none, none, none, "Language", 2, 1/2⟩
        (3/4))) ∧
    (entityOnMatch
        ⟨"python", "Python", "Language", none, none, none, "Language", 2, 1/2⟩
        (3/4)).avg_confidence = ((1:ℚ)/2 * 2 + 3/4) / (2 + 1) := by
  have h := running_average_merge.1
    ⟨[], [], [], [],
      [⟨"python", "Python", "Language", none, none, none, "Language", 2, 1/2⟩],
      [], []⟩
    "Python" "python" "Language" none none none "Language" (3/4)
    ⟨"python", "Python", "Language", none, none, none, "Language", 2, 1/2⟩
    (by rfl)
  refine ⟨h.1, ?_⟩
  have := h.2.2
  simpa using this

/-- A projection of the graph state unchanged by every step of a fold is
unchanged by the whole fold. -/
theorem foldl_proj_invariant {β γ : Type} (proj : GraphState → γ)
    (step : GraphState → β → GraphState)
    (h : ∀ g x, proj (step g x) = proj g) :
    ∀ (l : List β) (g : GraphState), proj (l.foldl step g) = proj g := by
  intro l
  induction l with
  | nil => intro g; rfl
  | cons x xs ih => intro g; rw [List.foldl_cons, ih, h]

theorem create_document_part_of (g : GraphState) (cid : Int) (u t : String) :
    (create_document g cid u t).part_of = g.part_of := by
  unfold create_document; split <;> rfl

theorem create_chunk_part_of (g : GraphState) (d vr ci cs ce : Int)
    (tp : String) :
    (create_chunk g d vr ci cs ce tp).part_of = g.part_of := rfl

theorem create_entity_part_of (g : GraphState) (a b c : String)
    (s1 s2 s3 : Option String) (tf : String) (cf : ℚ) :
    (create_entity g a b c s1 s2 s3 tf cf).part_of = g.part_of := by
  unfold create_entity; split <;> rfl

theorem link_entity_to_chunk_part_of (g : GraphState) (en : String) (cr : Int)
    (os oe : Int) (cf : ℚ) (cb ca sen : String) :
    (link_entity_to_chunk g en cr os oe cf cb ca sen).part_of = g.part_of := by
  unfold link_entity_to_chunk; split <;> rfl

theorem create_relationship_part_of (g : GraphState) (s p o : String)
    (cf : ℚ) (cx : String) :
    (create_relationship g s p o cf cx).part_of = g.part_of := by
  unfold create_relationship
  split
  · split <;> rfl
  · rfl

theorem storeEntityStep_part_of (chunks : List ChunkBoundary) (g : GraphState)
    (me : MappedEntity) :
    (storeEntityStep chunks g me).part_of = g.part_of := by
  unfold storeEntityStep
  rw [foldl_proj_invariant (fun g => g.part_of) _ ?_]
  · exact create_entity_part_of ..
  · intro g app
    split
    · exact link_entity_to_chunk_part_of ..
    · rfl

/-- The ingest path never writes a `PART_OF` edge. -/
theorem process_document_part_of (g : GraphState) (cid : Int)
    (u t : String) (chunks : List ChunkBoundary)
    (ex : Except String (List EntityRecord × List RelRecord)) :
    (process_document g cid u t chunks ex).1.part_of = g.part_of := by
  show (store_in_neo4j g cid u t chunks _ _).part_of = g.part_of
  unfold store_in_neo4j
  rw [foldl_proj_invariant (fun g => g.part_of) storeRelStep
      (fun g x => create_relationship_part_of ..),
    foldl_proj_invariant (fun g => g.part_of) (storeEntityStep chunks)
      (fun g x => storeEntityStep_part_of ..),
    foldl_proj_invariant (fun g => g.part_of) (storeChunkStep cid)
      (fun g x => create_chunk_part_of ..),
    create_document_part_of]

theorem create_document_doc_mem (g : GraphState) (cid : Int) (u t : String) :
    ∃ d ∈ (create_document g cid u t).docs, d.content_id = cid := by
  unfold create_document
  split
  · rename_i h
    rw [List.any_eq_true] at h
    obtain ⟨d, hd, hdc⟩ := h
    have hdc' : d.content_id = cid := of_decide_eq_true hdc
    refine ⟨{ d with url := u, title := t }, List.mem_map.mpr ⟨d, hd, ?_⟩, hdc'⟩
    rw [if_pos hdc']
  · exact ⟨⟨cid, u, t⟩, by simp, rfl⟩

/-- `create_chunk` persists the chunk it is given. -/
theorem storeChunkStep_establishes (cid : Int) (g : GraphState)
    (ch : ChunkBoundary) :
    chunkPersisted (storeChunkStep cid g ch) cid ch.vector_rowid := by
  simp only [storeChunkStep, create_chunk, chunkPersisted]
  constructor
  · split
    · rename_i h
      rw [List.any_eq_true] at h
      obtain ⟨c, hc, hcc⟩ := h
      have hcc' : c.vector_rowid = ch.vector_rowid := of_decide_eq_true hcc
      exact ⟨_, List.mem_map.mpr ⟨c, hc, rfl⟩, by rw [if_pos hcc']⟩
    · exact ⟨_, List.mem_append_right _ (List.mem_singleton_self _), rfl⟩
  · split
    · rename_i h; exact h
    · exact List.mem_append_right _ (List.mem_singleton_self _)

/-- `create_chunk` keeps every already-persisted chunk persisted. -/
theorem storeChunkStep_preserves {g : GraphState} {cid r : Int}
    (h : chunkPersisted g cid r) (ch : ChunkBoundary) :
    chunkPersisted (storeChunkStep cid g ch) cid r := by
  obtain ⟨⟨cn, hcn, hr⟩, hhc⟩ := h
  simp only [storeChunkStep, create_chunk, chunkPersisted]
  constructor
  · split
    · refine ⟨_, List.mem_map.mpr ⟨cn, hcn, rfl⟩, ?_⟩
      split
      · rename_i heq; rw [← heq, hr]
      · exact hr
    · exact ⟨cn, List.mem_append_left _ hcn, hr⟩
  · split
    · exact hhc
    · exact List.mem_append_left _ hhc

theorem chunkPersisted_fold_preserve (cid r : Int) :
    ∀ (l : List ChunkBoundary) (g : GraphState), chunkPersisted g cid r →
      chunkPersisted (l.foldl (storeChunkStep cid) g) cid r := by
  intro l
  induction l with
  | nil => intro g h; exact h
  | cons c cs ih =>
    intro g h
    exact ih _ (storeChunkStep_preserves h c)

/-- After the chunk-persistence loop every chunk of the request is
persisted. -/
theorem chunkPersisted_after_fold (cid : Int) :
    ∀ (l : List ChunkBoundary) (g : GraphState), ∀ ch ∈ l,
      chunkPersisted (l.foldl (storeChunkStep cid) g) cid ch.vector_rowid := by
  intro l
  induction l with
  | nil => intro g ch h; simp at h
  | cons c cs ih =>
    intro g ch h
    rcases List.mem_cons.mp h with rfl | h'
    · exact chunkPersisted_fold_preserve cid ch.vector_rowid cs _
        (storeChunkStep_establishes cid g ch)
    · exact ih _ ch h'

theorem storeEntityStep_chunks (chunks : List ChunkBoundary) (g : GraphState)
    (me : MappedEntity) :
    (storeEntityStep chunks g me).chunks = g.chunks ∧
    (storeEntityStep chunks g me).has_chunk = g.has_chunk ∧
    (storeEntityStep chunks g me).docs = g.docs := by
  unfold storeEntityStep
  refine ⟨?_, ?_, ?_⟩ <;>
    [rw [foldl_proj_invariant (fun g => g.chunks) _ ?_];
     rw [foldl_proj_invariant (fun g => g.has_chunk) _ ?_];
     rw [foldl_proj_invariant (fun g => g.docs) _ ?_]] <;>
  first
  | (unfold create_entity; split <;> rfl)
  | (intro g app
     split
     · unfold link_entity_to_chunk; split <;> rfl
     · rfl)

theorem storeRelStep_chunks (g : GraphState) (mr : MappedRel) :
    (storeRelStep g mr).chunks = g.chunks ∧
    (storeRelStep g mr).has_chunk = g.has_chunk ∧
    (storeRelStep g mr).docs = g.docs := by
  unfold storeRelStep create_relationship
  refine ⟨?_, ?_, ?_⟩ <;> (split <;> first | rfl | (split <;> rfl))

/-- `map_entities_to_chunks` of the empty entity list is empty on either
branch. -/
theorem map_entities_to_chunks_nil (chunks : List ChunkBoundary) :
    map_entities_to_chunks [] chunks = [] := by
  unfold map_entities_to_chunks; split <;> rfl

/-- On an extraction failure, `process_document` reduces to the document and
chunk persistence with an empty response payload. -/
theorem process_document_error_eq (g : GraphState) (cid : Int)
    (url title : String) (chunks : List ChunkBoundary) (err : String) :
    process_document g cid url title chunks (.error err) =
      (chunks.foldl (storeChunkStep cid) (create_document g cid url title),
        ⟨true, cid, 0, 0, [], []⟩) := by
  simp only [process_document, extract_kg_result, store_in_neo4j,
    map_entities_to_chunks_nil, map_relationships_to_chunks, List.foldl_nil,
    List.filterMap_nil, List.length_nil]

/-- Claim C7: any exception in the LLM call or parsing inside `extract_kg`
yields `([], [])` rather than propagating, and on an empty extraction the
pipeline still persists the Document and every Chunk and returns a
successful response with empty entity and relationship arrays. -/
theorem extraction_failure_semantics :
    (∀ err : String, extract_kg_result (.error err) = ([], [])) ∧
    (∀ (g : GraphState) (cid : Int) (url title : String)
      (chunks : List ChunkBoundary) (err : String),
      (process_document g cid url title chunks (.error err)).2.entities = [] ∧
      (process_document g cid url title chunks (.error err)).2.relationships
        = [] ∧
      (process_document g cid url title chunks (.error err)).2.success
        = true ∧
      (∃ d ∈ (process_document g cid url title chunks (.error err)).1.docs,
        d.content_id = cid) ∧
      ∀ ch ∈ chunks,
        chunkPersisted (process_document g cid url title chunks (.error err)).1
          cid ch.vector_rowid) := by
  refine ⟨fun _ => rfl, ?_⟩
  intro g cid url title chunks err
  rw [process_document_error_eq]
  refine ⟨rfl, rfl, rfl, ?_, ?_⟩
  · rw [foldl_proj_invariant (fun g => g.docs) (storeChunkStep cid)
      (fun g x => rfl)]
    exact create_document_doc_mem g cid url title
  · intro ch hch
    exact chunkPersisted_after_fold cid chunks _ ch hch

/-- Witness for claim C7: a failed extraction over a one-chunk request still
persists the document and the chunk. -/
theorem extraction_failure_semantics_witness :
    (process_document GraphState.empty 5 "https://u" "t" [c1_chunk0]
      (.error "boom")).2.entities = [] ∧
    chunkPersisted (process_document GraphState.empty 5 "https://u" "t"
      [c1_chunk0] (.error "boom")).1 5 45001 := by
  have h := extraction_failure_semantics.2 GraphState.empty 5 "https://u" "t"
    [c1_chunk0] "boom"
  exact ⟨h.1, h.2.2.2.2 c1_chunk0 (by simp)⟩

/-- Claim C1 fails on the code (as a code bug): the ingest path never writes
a `PART_OF` edge (it writes `HAS_CHUNK`), while the enhanced-search query
collects chunks only through `PART_OF`; moreover the mapper reads the
`start_pos` / `end_pos` / `occurrences` keys that neither extractor emits,
so spec scenario entities with short texts (`Neo4j`, `Python`) are never
linked to any chunk at all.  Concretely: after ingesting a long-named
entity mentioned in chunk 45001, that chunk carries the mention, yet the
enhanced-search collection is empty; after ingesting the literal scenario
entities no `MENTIONED_IN` edge exists at all. -/
theorem enhanced_search_misses_ingested_chunks :
    ((chunks_mentioning_resolved c1_state_long ["Elasticsearch Cluster"]).map
        (fun c => c.vector_rowid) = [45001] ∧
      search_chunk_rows c1_state_long ["Elasticsearch Cluster"] = []) ∧
    (c1_state_spec.mentioned_in = [] ∧
      search_chunk_rows c1_state_spec ["Neo4j", "Python"] = []) ∧
    (∀ (g : GraphState) (cid : Int) (u t : String)
      (chunks : List ChunkBoundary)
      (ex : Except String (List EntityRecord × List RelRecord)),
      (process_document g cid u t chunks ex).1.part_of = g.part_of) := by
  refine ⟨⟨by decide, by decide⟩, ⟨by decide, by decide⟩, ?_⟩
  intro g cid u t chunks ex
  exact process_document_part_of g cid u t chunks ex

set_option maxRecDepth 40000 in
/-- Claim C5 fails on the code (as a code bug).  First part: the mapper
reads the `occurrences` / `start_pos` / `end_pos` keys that the extractors
never emit (they emit `start` / `end`), so every entity is mapped with the
occurrence `(0, len(text))`; for a valid request whose entity
`electromagnetism` truly occupies positions 25–41 of the markdown, the
returned appearance points at positions 0–16, whose substring differs from
the entity text, and no substring-recovery fallback is involved.  Second
part: on a document longer than 1500 characters containing a double
newline, `_chunk_text_for_gliner` records a segment whose text is not the
document substring at its recorded range, so an offset that is exact inside
the segment text shifts to document coordinates whose substring differs
from the word. -/
theorem entity_roundtrip_counterexample :
    (chunkMetadataValid c5_chunk ∧ 50 ≤ c5_markdown.length ∧
      pySlice c5_markdown c5_entity.startIdx c5_entity.endIdx =
        c5_entity.text ∧
      ∃ me ∈ c5_result.2.entities, me.chunk_appearances ≠ [] ∧
        ∀ app ∈ me.chunk_appearances,
          pySlice c5_markdown (c5_chunk.char_start + app.offset_start)
            (c5_chunk.char_start + app.offset_end) ≠ me.entity.text) ∧
    (1500 < c5seg_text.length ∧
      ∃ seg ∈ chunk_text_for_gliner c5seg_text 1000,
        sliceL seg.text 0 9 = List.replicate 9 'b' ∧
        sliceL c5seg_text (seg.char_start + 0) (seg.char_start + 9) ≠
          List.replicate 9 'b') := by
  constructor
  · refine ⟨by decide, by decide, by decide, ?_⟩
    decide
  · refine ⟨by decide, ?_⟩
    decide

/-- Right-stripping removes only whitespace, so the count of any
non-whitespace character is unchanged. -/
theorem countCh_rstrip (c : Char) (hc : isPySpace c = false) (l : List Char) :
    countCh c (rstrip l) = countCh c l := by
  unfold rstrip countCh
  rw [List.count_reverse]
  conv_rhs => rw [← List.count_reverse]
  conv_rhs =>
    rw [← List.takeWhile_append_dropWhile (p := isPySpace) (l := l.reverse)]
  rw [List.count_append]
  have hz : (l.reverse.takeWhile isPySpace).count c = 0 := by
    rw [List.count_eq_zero]
    intro hmem
    have h := List.mem_takeWhile_imp hmem
    rw [hc] at h
    exact Bool.noConfusion h
  omega

/-- Claim C6: the truncation healer returns the input unchanged when its
brace and bracket counts balance and it ends (right-stripped) with a
closing brace; in every case its output has balanced brace and bracket
counts; and any closer-only suffix that balances a truncated text contains
exactly the deficit of closing brackets and braces — so the healer's
appended suffix is the minimum one. -/
theorem heal_preserves_balance :
    (∀ response : List Char, balancedCounts (heal_truncated_json response)) ∧
    (∀ response : List Char, balancedCounts response →
      (rstrip response).getLast? = some '\x7d' →
      heal_truncated_json response = response) ∧
    (∀ healed extra : List Char,
      (∀ c ∈ extra, c = ']' ∨ c = '\x7d' ∨ isPySpace c = true) →
      balancedCounts (healed ++ extra) →
      countCh ']' extra = countCh '[' healed - countCh ']' healed ∧
      countCh '\x7d' extra = countCh '\x7b' healed - countCh '\x7d' healed) := by
  have heal_eq_none : ∀ (response : List Char),
      response.findIdx? (fun c => decide (c = '\x7b')) = none →
      heal_truncated_json response = emptyDocument := by
    intro response h
    unfold heal_truncated_json
    rw [h]
  have heal_eq_some : ∀ (response : List Char) (i : ℕ),
      response.findIdx? (fun c => decide (c = '\x7b')) = some i →
      heal_truncated_json response =
        if (rstrip response).getLast? = some '\x7d' ∧
            countCh '\x7b' (rstrip response) =
              countCh '\x7d' (rstrip response) ∧
            countCh '[' (rstrip response) = countCh ']' (rstrip response) then
          response
        else healCore response i := by
    intro response i h
    unfold heal_truncated_json
    rw [h]
  refine ⟨?_, ?_, ?_⟩
  · intro response
    cases hf : response.findIdx? (fun c => decide (c = '\x7b')) with
    | none =>
      rw [heal_eq_none response hf]
      exact (by decide : balancedCounts emptyDocument)
    | some i =>
      rw [heal_eq_some response i hf]
      split
      · rename_i hguard
        obtain ⟨hlast, hb1, hb2⟩ := hguard
        constructor
        · rw [← countCh_rstrip '\x7b' (by decide) response,
            ← countCh_rstrip '\x7d' (by decide) response]
          exact hb1
        · rw [← countCh_rstrip '[' (by decide) response,
            ← countCh_rstrip ']' (by decide) response]
          exact hb2
      · unfold healCore
        split
        · exact (by decide : balancedCounts emptyDocument)
        · unfold healAfterTruncate
          split
          · rename_i hbal; exact hbal
          · exact (by decide : balancedCounts emptyDocument)
  · intro response hb hlast
    have hsub : List.Sublist (rstrip response) response := by
      unfold rstrip
      have h := (List.dropWhile_sublist (l := response.reverse) isPySpace).reverse
      simpa using h
    have hmem7d : '\x7d' ∈ response :=
      hsub.subset (List.mem_of_getLast?_eq_some hlast)
    have hmem7b : '\x7b' ∈ response := by
      rw [← List.count_pos_iff]
      have h2 : 0 < List.count '\x7d' response := List.count_pos_iff.mpr hmem7d
      have := hb.1
      unfold countCh at this
      omega
    have hsome : ∃ i, response.findIdx? (fun c => decide (c = '\x7b')) = some i := by
      cases hfi : response.findIdx? (fun c => decide (c = '\x7b')) with
      | some i => exact ⟨i, rfl⟩
      | none =>
        rw [List.findIdx?_eq_none_iff] at hfi
        have h := hfi _ hmem7b
        simp at h
    obtain ⟨i, hi⟩ := hsome
    rw [heal_eq_some response i hi]
    rw [if_pos ?_]
    refine ⟨hlast, ?_, ?_⟩
    · rw [countCh_rstrip '\x7b' (by decide), countCh_rstrip '\x7d' (by decide)]
      exact hb.1
    · rw [countCh_rstrip '[' (by decide), countCh_rstrip ']' (by decide)]
      exact hb.2
  · intro healed extra hcl hb
    have h1 : countCh '[' extra = 0 := by
      unfold countCh
      rw [List.count_eq_zero]
      intro hmem
      rcases hcl _ hmem with h | h | h <;> exact absurd h (by decide)
    have h2 : countCh '\x7b' extra = 0 := by
      unfold countCh
      rw [List.count_eq_zero]
      intro hmem
      rcases hcl _ hmem with h | h | h <;> exact absurd h (by decide)
    obtain ⟨hb1, hb2⟩ := hb
    unfold countCh at *
    rw [List.count_append, List.count_append] at hb1 hb2
    omega

/-- Witness for claim C6: a balanced response ending in a closing brace is
returned unchanged, and the one-bracket-one-brace suffix that balances the
truncated text `'\x7b"entities": ['` is exactly its deficit. -/
theorem heal_preserves_balance_witness :
    heal_truncated_json ("\x7b\"entities\": []\x7d".toList) =
      "\x7b\"entities\": []\x7d".toList ∧
    countCh ']' (']' :: ['\x7d']) =
      countCh '[' ("\x7b\"entities\": [".toList) -
        countCh ']' ("\x7b\"entities\": [".toList) :=
  ⟨heal_preserves_balance.2.1 _ (by decide) (by decide),
   (heal_preserves_balance.2.2 ("\x7b\"entities\": [".toList) (']' :: ['\x7d'])
     (by decide) (by decide)).1⟩

/-- The gate invariant holds in every reachable state. -/
theorem semInv_of_reachable {max n : ℕ} {s : SemState}
    (h : SemReachable max n s) : SemInv n max s := by
  unfold SemReachable at h
  induction h with
  | refl => simp [SemInv, SemState.holders, SemState.init]
  | tail hsteps hstep ih =>
    cases hstep <;>
      (simp only [SemInv, SemState.holders, SemState.init] at *; omega)

/-- Claim C8: in every reachable state of the extraction gate the number of
in-flight extractions (`active`) is between 0 and the configured maximum,
`active` equals the number of callers between the `start` and the
`complete`/`fail` metric updates, and once no caller remains queued,
acquired, running or waiting on release, `active` is back to 0 and
`completed + failed` accounts for all `n` submitted extractions. -/
theorem extraction_gate_bounded (max n : ℕ) (s : SemState)
    (h : SemReachable max n s) :
    (0 ≤ s.active ∧ s.active ≤ (max : Int)) ∧
    ((s.n_new = 0 ∧ s.n_queued = 0 ∧ s.n_acquired = 0 ∧ s.n_running = 0 ∧
        s.n_doneok = 0 ∧ s.n_donefail = 0) →
      s.active = 0 ∧ s.total_completed + s.total_failed = n) ∧
    s.active = (s.n_running : Int) := by
  have hinv := semInv_of_reachable h
  unfold SemInv SemState.holders at hinv
  obtain ⟨h1, h2, h3, h4, h5⟩ := hinv
  refine ⟨⟨by omega, by omega⟩, ?_, h1⟩
  intro hfin
  omega

/-- Witness for claim C8 at the initial state of three callers under
capacity two. -/
theorem extraction_gate_bounded_witness :
    0 ≤ (SemState.init 3).active ∧
      (SemState.init 3).active ≤ ((2 : ℕ) : Int) :=
  (extraction_gate_bounded 2 3 (SemState.init 3) Relation.ReflTransGen.refl).1

/-- Claim C9 fails on the code (as a code bug): schema violations are
answered 422 and extraction failures 500, but an uninitialized orchestrator
is also answered 500 — the handler raises `HTTPException(503)` inside its
own `try` block and the blanket `except Exception` converts it into
`HTTPException(500, "Processing failed: 503: ...")`. -/
theorem ingest_status_codes :
    (∀ (initialized : Bool) (p : Except String IngestResult),
      ingest_endpoint false initialized p = 422) ∧
    (∀ e : String, outcome_status (ingest_document true (.error e)) = 500) ∧
    (∀ p : Except String IngestResult,
      outcome_status (ingest_document false p) = 500) ∧
    (500 : ℕ) ≠ 503 :=
  ⟨fun _ _ => rfl, fun _ => rfl, fun _ => rfl, by decide⟩

/-- Every record the dedup loop adds beyond its starting state is `mk c rid`
for a row `c` of the list whose `vector_rowid` is `some rid`. -/
theorem mem_dedup_fold {mk : RawChunk → Int → ScoredChunk} :
    ∀ {l : List RawChunk} {st : List Int × List ScoredChunk} {x : ScoredChunk},
      x ∈ (l.foldl (dedupStep mk) st).2 →
      x ∈ st.2 ∨ ∃ c ∈ l, ∃ rid, c.vector_rowid = some rid ∧ x = mk c rid := by
  intro l
  induction l with
  | nil => intro st x h; exact Or.inl h
  | cons c cs ih =>
    intro st x h
    rcases @ih (dedupStep mk st c) x h with h' | ⟨c', hc', rid, hrid, hx⟩
    · cases hcv : c.vector_rowid with
      | none =>
        simp only [dedupStep, hcv] at h'
        exact Or.inl h'
      | some rid =>
        simp only [dedupStep, hcv] at h'
        by_cases hmem : rid ∈ st.1
        · rw [if_pos hmem] at h'
          exact Or.inl h'
        · rw [if_neg hmem] at h'
          replace h' : x ∈ st.2 ++ [mk c rid] := h'
          rcases List.mem_append.mp h' with h'' | h''
          · exact Or.inl h''
          · exact Or.inr ⟨c, List.mem_cons_self _ _, rid, hcv,
              List.mem_singleton.mp h''⟩
    · exact Or.inr ⟨c', List.mem_cons_of_mem _ hc', rid, hrid, hx⟩

/-- The tier function on a search-term chunk (no expanded entities). -/
theorem tierScore_search (n : ℕ) :
    tierScore n 0 = if 2 ≤ n then 1 else if n = 1 then 3/5 else 2/5 := by
  unfold tierScore
  by_cases h2 : 2 ≤ n
  · rw [if_pos h2, if_pos h2]
  · rw [if_neg h2, if_neg h2]
    by_cases h1 : n = 1
    · rw [if_pos h1, if_pos h1]
    · rw [if_neg h1, if_neg h1, if_neg (by omega), if_neg (by omega)]

/-- The tier function on an expansion-only chunk (no search entities). -/
theorem tierScore_expanded (x : ℕ) :
    tierScore 0 x = if 3 < x then 4/5 else if 1 < x then 3/5 else 2/5 := by
  unfold tierScore
  rw [if_neg (by omega), if_neg (by omega)]

/-- The scored record of a search-term chunk carries exactly the tier score
of its counts. -/
theorem scoreSearchChunk_score (c : RawChunk) (rid : Int) :
    (scoreSearchChunk c rid).expansion_score =
      tierScore (scoreSearchChunk c rid).search_entity_count
        (scoreSearchChunk c rid).expanded_entity_count := by
  show (if 2 ≤ c.search_entities.length then (1 : ℚ)
    else if c.search_entities.length = 1 then 3/5 else 2/5) =
    tierScore c.search_entities.length 0
  rw [tierScore_search]

/-- The scored record of an expansion-only chunk carries exactly the tier
score of its counts. -/
theorem scoreExpandedChunk_score (c : RawChunk) (rid : Int) :
    (scoreExpandedChunk c rid).expansion_score =
      tierScore (scoreExpandedChunk c rid).search_entity_count
        (scoreExpandedChunk c rid).expanded_entity_count := by
  show (if 3 < c.expanded_entities.length then (4 : ℚ)/5
    else if 1 < c.expanded_entities.length then 3/5 else 2/5) =
    tierScore 0 c.expanded_entities.length
  rw [tierScore_expanded]

/-- The dedup loop keeps the accumulated rowids free of duplicates and
recorded in the `chunk_dedup` set. -/
theorem dedupStep_inv {mk : RawChunk → Int → ScoredChunk}
    (hmk : ∀ c rid, (mk c rid).vector_rowid = rid)
    (st : List Int × List ScoredChunk) (c : RawChunk)
    (h1 : (st.2.map (fun x => x.vector_rowid)).Nodup)
    (h2 : ∀ r ∈ st.2.map (fun x => x.vector_rowid), r ∈ st.1) :
    ((dedupStep mk st c).2.map (fun x => x.vector_rowid)).Nodup ∧
    (∀ r ∈ (dedupStep mk st c).2.map (fun x => x.vector_rowid),
      r ∈ (dedupStep mk st c).1) := by
  cases hcv : c.vector_rowid with
  | none =>
    simp only [dedupStep, hcv]
    exact ⟨h1, h2⟩
  | some rid =>
    simp only [dedupStep, hcv]
    by_cases hmem : rid ∈ st.1
    · rw [if_pos hmem]
      exact ⟨h1, h2⟩
    · rw [if_neg hmem]
      constructor
      · show (List.map (fun x => x.vector_rowid) (st.2 ++ [mk c rid])).Nodup
        rw [List.map_append]
        refine List.Nodup.append h1 (by simp) ?_
        intro a ha hb
        simp only [List.map_cons, List.map_nil, List.mem_singleton, hmk] at hb
        exact hmem (hb ▸ h2 a ha)
      · intro r hr
        replace hr : r ∈ List.map (fun x => x.vector_rowid)
          (st.2 ++ [mk c rid]) := hr
        show r ∈ rid :: st.1
        rw [List.map_append] at hr
        rcases List.mem_append.mp hr with h | h
        · exact List.mem_cons_of_mem _ (h2 r h)
        · simp only [List.map_cons, List.map_nil, List.mem_singleton, hmk] at h
          rw [h]
          exact List.mem_cons_self _ _

theorem dedup_fold_inv {mk : RawChunk → Int → ScoredChunk}
    (hmk : ∀ c rid, (mk c rid).vector_rowid = rid) :
    ∀ (l : List RawChunk) (st : List Int × List ScoredChunk),
      (st.2.map (fun x => x.vector_rowid)).Nodup →
      (∀ r ∈ st.2.map (fun x => x.vector_rowid), r ∈ st.1) →
      ((l.foldl (dedupStep mk) st).2.map (fun x => x.vector_rowid)).Nodup ∧
      (∀ r ∈ (l.foldl (dedupStep mk) st).2.map (fun x => x.vector_rowid),
        r ∈ (l.foldl (dedupStep mk) st).1) := by
  intro l
  induction l with
  | nil => intro st h1 h2; exact ⟨h1, h2⟩
  | cons c cs ih =>
    intro st h1 h2
    have hstep := dedupStep_inv hmk st c h1 h2
    exact ih (dedupStep mk st c) hstep.1 hstep.2

/-- Claim C10: the enhanced-search scorer deduplicates by `vector_rowid`,
assigns exactly the tier scores (1.0 for ≥ 2 resolved entities, 0.6 for
exactly one, 0.8 for an expansion-only chunk with more than three
co-occurring entities, 0.6 for two or three, 0.4 otherwise), sorts by score
descending, truncates the final list to `max_chunks`, and truncates each
chunk's text to 500 characters. -/
theorem enhanced_scoring_tiers :
    (∀ (qr : QueryResult), ∀ c ∈ score_and_rank_chunks qr,
      c.expansion_score =
        tierScore c.search_entity_count c.expanded_entity_count ∧
      (0 < c.expanded_entity_count → c.search_entity_count = 0) ∧
      c.chunk_text.length ≤ 500) ∧
    (∀ qr : QueryResult,
      ((score_and_rank_chunks qr).map (fun c => c.vector_rowid)).Nodup) ∧
    (∀ qr : QueryResult, (score_and_rank_chunks qr).Pairwise
      (fun a b => b.expansion_score ≤ a.expansion_score)) ∧
    (∀ (qr : QueryResult) (max_chunks : ℕ),
      enhanced_top_chunks qr max_chunks =
        (score_and_rank_chunks qr).take max_chunks ∧
      (enhanced_top_chunks qr max_chunks).length ≤ max_chunks) := by
  refine ⟨?_, ?_, ?_, ?_⟩
  · intro qr c hc
    rw [score_and_rank_chunks, List.mem_mergeSort] at hc
    have hgen : ∃ row rid, row.vector_rowid = some rid ∧
        (c = scoreSearchChunk row rid ∨ c = scoreExpandedChunk row rid) := by
      rcases mem_dedup_fold hc with h | ⟨row, _, rid, hrid, hx⟩
      · rcases mem_dedup_fold h with h' | ⟨row, _, rid, hrid, hx⟩
        · simp at h'
        · exact ⟨row, rid, hrid, Or.inl hx⟩
      · exact ⟨row, rid, hrid, Or.inr hx⟩
    obtain ⟨row, rid, _, hx | hx⟩ := hgen <;> subst hx
    · refine ⟨scoreSearchChunk_score row rid, ?_, ?_⟩
      · intro h; simp [scoreSearchChunk] at h
      · simp [scoreSearchChunk, List.length_take]
    · refine ⟨scoreExpandedChunk_score row rid, fun _ => rfl, ?_⟩
      simp [scoreExpandedChunk, List.length_take]
  · intro qr
    have hmk1 : ∀ (c : RawChunk) (rid : Int),
        (scoreSearchChunk c rid).vector_rowid = rid := fun _ _ => rfl
    have hmk2 : ∀ (c : RawChunk) (rid : Int),
        (scoreExpandedChunk c rid).vector_rowid = rid := fun _ _ => rfl
    have h0 := dedup_fold_inv hmk1 qr.search_chunks ([], [])
      (by simp) (by simp)
    have h := dedup_fold_inv hmk2 qr.expanded_chunks _ h0.1 h0.2
    rw [score_and_rank_chunks]
    have hperm := (List.mergeSort_perm
      ((qr.expanded_chunks.foldl (dedupStep scoreExpandedChunk)
        (qr.search_chunks.foldl (dedupStep scoreSearchChunk) ([], []))).2)
      (fun a b => decide (b.expansion_score ≤ a.expansion_score))).map
      (fun c => c.vector_rowid)
    exact hperm.nodup_iff.mpr h.1
  · intro qr
    rw [score_and_rank_chunks]
    have h := @List.sorted_mergeSort ScoredChunk
      (fun a b : ScoredChunk =>
        decide (b.expansion_score ≤ a.expansion_score))
      (fun a b c hab hbc => by
        simp only [decide_eq_true_eq] at *
        exact le_trans hbc hab)
      (fun a b => by
        rcases le_total a.expansion_score b.expansion_score with h | h <;>
          simp [h])
      ((qr.expanded_chunks.foldl (dedupStep scoreExpandedChunk)
        (qr.search_chunks.foldl (dedupStep scoreSearchChunk) ([], []))).2)
    exact h.imp (fun hab => of_decide_eq_true hab)
  · intro qr max_chunks
    refine ⟨rfl, ?_⟩
    rw [enhanced_top_chunks]
    simp [List.length_take]

/-- Witness for claim C9 at the failing input: a schema-valid request hitting
an uninitialized orchestrator is answered 500. -/
theorem ingest_status_codes_witness :
    outcome_status (ingest_document false (.error "x")) = 500 :=
  ingest_status_codes.2.2.1 (.error "x")

/-- Witness for claim C10 at a concrete query result: the single search-term
chunk with two resolved entities is scored `tierScore 2 0 = 1`. -/
theorem enhanced_scoring_tiers_witness :
    (scoreSearchChunk ⟨"c1", some 1, 0, [], "u", ["A", "B"], []⟩
        1).expansion_score =
      tierScore
        (scoreSearchChunk ⟨"c1", some 1, 0, [], "u", ["A", "B"], []⟩
          1).search_entity_count
        (scoreSearchChunk ⟨"c1", some 1, 0, [], "u", ["A", "B"], []⟩
          1).expanded_entity_count ∧
    (0 < (scoreSearchChunk ⟨"c1", some 1, 0, [], "u", ["A", "B"], []⟩
        1).expanded_entity_count →
      (scoreSearchChunk ⟨"c1", some 1, 0, [], "u", ["A", "B"], []⟩
        1).search_entity_count = 0) ∧
    (scoreSearchChunk ⟨"c1", some 1, 0, [], "u", ["A", "B"], []⟩
        1).chunk_text.length ≤ 500 :=
  enhanced_scoring_tiers.1
    ⟨[⟨"c1", some 1, 0, [], "u", ["A", "B"], []⟩], []⟩
    (scoreSearchChunk ⟨"c1", some 1, 0, [], "u", ["A", "B"], []⟩ 1)
    (by rw [score_and_rank_chunks, List.mem_mergeSort]; decide)

end RobaiKG
